import Mathlib

/-
Verification of the census pipeline DAG (dags/mlflow-dag.py).

The pipeline's Record Set (a pandas DataFrame) is embedded as a rectangular
table of cells: a list of column names, a parallel list of column dtypes and
a list of rows, each row a list of cells.  A cell is either missing (NaN),
a string, or an integer.  Fallible dataframe operations (column lookups that
raise KeyError in pandas) return Option.  The four task bodies are translated
operation by operation from the source.
-/

set_option maxRecDepth 4000

/-- A single cell of the tabular Record Set: missing (NaN), string, or integer. -/
inductive Cell where
  | na : Cell
  | str : String → Cell
  | int : Int → Cell
deriving DecidableEq, Repr

/-- Column dtype of a pandas column, as far as the pipeline inspects it
(`df.dtypes[col]=='object'` is the only dtype test in the source). -/
inductive DType where
  | object : DType
  | int64 : DType
  | category : DType
deriving DecidableEq, Repr

/-- The Record Set passed between pipeline stages: named columns with dtypes
and a list of rows.  Well-formedness (rectangularity) is checked by `wfb`. -/
structure DataFrame where
  cols : List String
  dtypes : List DType
  rows : List (List Cell)
deriving DecidableEq, Repr

/-- First value bound to key `c` in an association list (column access by name). -/
def lookupCol {α : Type} (c : String) : List (String × α) → Option α
  | [] => none
  | (k, v) :: rest => if k = c then some v else lookupCol c rest

/-- Boolean membership test for a column name. -/
def memStr (c : String) : List String → Bool
  | [] => false
  | k :: rest => if k = c then true else memStr c rest

/-- Value of row `r` at the column named `c` (NaN when the column is absent,
mirroring that the lookups the claims use are on present columns). -/
def rowValD (cols : List String) (r : List Cell) (c : String) : Cell :=
  (lookupCol c (cols.zip r)).getD Cell.na

/-- The full column of values named `c`, or `none` when the column is absent
(pandas raises `KeyError`). -/
def colVals (df : DataFrame) (c : String) : Option (List Cell) :=
  if memStr c df.cols then some (df.rows.map (fun r => rowValD df.cols r c)) else none

/-- Does a row contain a missing value? -/
def hasNaCell : List Cell → Bool
  | [] => false
  | x :: xs => if x = Cell.na then true else hasNaCell xs

/-- Is a cell admissible for a column of the given dtype?  An `object` column
holds strings (or NaN), an `int64` column holds integers. -/
def cellOkFor (dt : DType) (x : Cell) : Bool :=
  match dt, x with
  | DType.object, Cell.int _ => false
  | DType.int64, Cell.str _ => false
  | _, _ => true

/-- Rectangularity and dtype-honesty of a Record Set: as produced by the
BigQuery client, every row has one cell per column and cells match their
column's dtype. -/
def wfb (df : DataFrame) : Bool :=
  (df.dtypes.length == df.cols.length) &&
  df.rows.all (fun r => (r.length == df.cols.length) &&
    (df.dtypes.zip r).all (fun p => cellOkFor p.1 p.2))

/-- Python whitespace characters stripped by `str.rstrip()`/`str.lstrip()`
(restricted to the ASCII whitespace occurring in the data). -/
def isPySpace (ch : Char) : Bool :=
  ch = ' ' || ch = '\t' || ch = '\n' || ch = '\r' || ch = '\x0b' || ch = '\x0c'

/-- Model of `x.rstrip().lstrip()`: remove leading and trailing whitespace. -/
def trimString (s : String) : String :=
  ⟨((s.data.dropWhile isPySpace).reverse.dropWhile isPySpace).reverse⟩

/-- Whitespace trimming applied to a string cell (line 68 of the source). -/
def trimCell : Cell → Cell
  | Cell.str s => Cell.str (trimString s)
  | x => x

/-- The lambda of lines 72-74: rename a literal `"?"` value to `"Unknown"`. -/
def qToUnknown (x : Cell) : Cell :=
  if x = Cell.str "?" then Cell.str "Unknown" else x

/-- Per-row effect of the loop of lines 64-68: each cell in an `object`-dtyped
column is trimmed, cells of other columns are untouched. -/
def stripRow (dtypes : List DType) (r : List Cell) : List Cell :=
  (dtypes.zip r).map (fun p => if p.1 = DType.object then trimCell p.2 else p.2)

/-- Per-row effect of `df[c] = df[c].apply(f)`: every cell lying in a column
named `c` is mapped through `f`. -/
def applyRow (cols : List String) (c : String) (f : Cell → Cell) (r : List Cell) : List Cell :=
  (cols.zip r).map (fun p => if p.1 = c then f p.2 else p.2)

/-- Keep the entries of `r` whose column name satisfies `P` (alignment helper
for dropping columns). -/
def keepCells {α : Type} (cols : List String) (P : String → Bool) (r : List α) : List α :=
  ((cols.zip r).filter (fun p => P p.1)).map Prod.snd

/-- First-occurrence row deduplication (pandas `drop_duplicates` keeps the
first of each group of equal rows); `seen` accumulates rows already kept. -/
def dedupRowsAux (seen : List (List Cell)) : List (List Cell) → List (List Cell)
  | [] => []
  | r :: rs =>
    if r ∈ seen then dedupRowsAux seen rs
    else r :: dedupRowsAux (r :: seen) rs

/-- Line 61: `df.dropna(inplace=True)` — remove rows containing a missing value. -/
def dropna (df : DataFrame) : DataFrame :=
  { df with rows := df.rows.filter (fun r => !(hasNaCell r)) }

/-- Line 62: `df.drop_duplicates(inplace=True)` — remove exact duplicate rows,
keeping first occurrences. -/
def drop_duplicates (df : DataFrame) : DataFrame :=
  { df with rows := dedupRowsAux [] df.rows }

/-- Lines 64-68: trim every string cell of every `object`-dtyped column. -/
def stripObjectCols (df : DataFrame) : DataFrame :=
  { df with rows := df.rows.map (stripRow df.dtypes) }

/-- `df[c] = df[c].apply(f)`: `none` when the column is absent (KeyError). -/
def applyCol (df : DataFrame) (c : String) (f : Cell → Cell) : Option DataFrame :=
  if memStr c df.cols then
    some { df with rows := df.rows.map (applyRow df.cols c f) }
  else none

/-- `df.drop(columns=cs)`: `none` when a named column is absent (KeyError). -/
def dropColumns (df : DataFrame) (cs : List String) : Option DataFrame :=
  if cs.all (fun c => memStr c df.cols) then
    some { cols := df.cols.filter (fun k => !(memStr k cs)),
           dtypes := keepCells df.cols (fun k => !(memStr k cs)) df.dtypes,
           rows := df.rows.map (keepCells df.cols (fun k => !(memStr k cs))) }
  else none

/-- The Cleaner (`preprocessing`, lines 61-80): dropna, drop_duplicates,
trim object columns, rename `"?"` to `"Unknown"` in workclass / occupation /
native_country, then drop three unused columns.  Returns `none` when the
input is not a well-formed frame or an expected column is absent. -/
def preprocessing (df : DataFrame) : Option DataFrame :=
  if wfb df then
    let d2 := drop_duplicates (dropna df)
    let d3 := stripObjectCols d2
    (applyCol d3 "workclass" qToUnknown).bind (fun d4 =>
    (applyCol d4 "occupation" qToUnknown).bind (fun d5 =>
    (applyCol d5 "native_country" qToUnknown).bind (fun d6 =>
    dropColumns d6 ["education_num", "relationship", "functional_weight"])))
  else none

/-- In-place semantics of the Cleaner: every operation in the body uses
`inplace=True` (or reassigns a column of the same object) and line 80 returns
`df` itself, so on success the caller's object and the returned value are one
and the same, both holding the fully cleaned table.  The pair is (state of the
caller's input object after the call, returned value). -/
def preprocessingRun (df : DataFrame) : Option (DataFrame × DataFrame) :=
  match preprocessing df with
  | some d => some (d, d)
  | none => none

/-- Display name of a category value, as it appears in a one-hot column name. -/
def cellName : Cell → String
  | Cell.na => "NaN"
  | Cell.str s => s
  | Cell.int n => toString n

/-- Name of the indicator column produced by `pd.get_dummies(df, prefix=pfx)`
for category value `v` (default separator `"_"`). -/
def dummyName (pfx : String) (v : Cell) : String :=
  pfx ++ "_" ++ cellName v

/-- First-occurrence deduplication of a list of cells. -/
def dedupCellsAux (seen : List Cell) : List Cell → List Cell
  | [] => []
  | v :: vs =>
    if v ∈ seen then dedupCellsAux seen vs
    else v :: dedupCellsAux (v :: seen) vs

/-- String order on character data (lexicographic by code point), used to
mirror the sorted category order of `pd.get_dummies`. -/
def charListLe : List Char → List Char → Bool
  | [], _ => true
  | _ :: _, [] => false
  | a :: as, b :: bs =>
    if a.toNat < b.toNat then true
    else if b.toNat < a.toNat then false
    else charListLe as bs

/-- Total order on cells: NaN, then integers, then strings. -/
def cellLe (x y : Cell) : Bool :=
  match x, y with
  | Cell.na, _ => true
  | _, Cell.na => false
  | Cell.int m, Cell.int n => m ≤ n
  | Cell.int _, Cell.str _ => true
  | Cell.str _, Cell.int _ => false
  | Cell.str s, Cell.str t => charListLe s.data t.data

/-- Ordered insertion for the insertion sort on cells. -/
def insertCell (x : Cell) : List Cell → List Cell
  | [] => [x]
  | y :: ys => if cellLe x y then x :: y :: ys else y :: insertCell x ys

/-- Insertion sort on cells. -/
def sortCells : List Cell → List Cell
  | [] => []
  | x :: xs => insertCell x (sortCells xs)

/-- The distinct non-missing values of a column, in sorted order: the category
values for which `pd.get_dummies` creates indicator columns (NaN gets no
column, `dummy_na` being left at its default `False`). -/
def distinctVals (vs : List Cell) : List Cell :=
  sortCells (dedupCellsAux [] (vs.filter (fun v => decide (v ≠ Cell.na))))

/-- One-hot indicators of value `v` against the category list `dvs`:
1 for the category equal to `v`, 0 elsewhere. -/
def indicatorRow (dvs : List Cell) (v : Cell) : List Cell :=
  dvs.map (fun u => if u = v then Cell.int 1 else Cell.int 0)

/-- `pd.get_dummies(df, prefix=pfx, columns=[c])` (lines 94-100): remove
column `c`, keep all other columns in order, and append one indicator column
per distinct non-missing value of `c`, named `pfx_<value>`.  `none` when `c`
is absent. -/
def getDummies (df : DataFrame) (pfx c : String) : Option DataFrame :=
  if memStr c df.cols then
    let vs := df.rows.map (fun r => rowValD df.cols r c)
    let dvs := distinctVals vs
    some { cols := df.cols.filter (fun k => !(k == c)) ++ dvs.map (dummyName pfx),
           dtypes := keepCells df.cols (fun k => !(k == c)) df.dtypes ++
                     dvs.map (fun _ => DType.int64),
           rows := df.rows.map (fun r =>
             keepCells df.cols (fun k => !(k == c)) r ++
             indicatorRow dvs (rowValD df.cols r c)) }
  else none

/-- `df[c] = <series>`: replace the values of column `c` when it exists, else
append a new column named `c` of dtype `dt` at the end of the frame. -/
def setColumn (df : DataFrame) (c : String) (dt : DType) (vals : List Cell) : DataFrame :=
  if memStr c df.cols then
    { df with rows := (df.rows.zip vals).map (fun rv =>
        (df.cols.zip rv.1).map (fun p => if p.1 = c then rv.2 else p.2)) }
  else
    { cols := df.cols ++ [c], dtypes := df.dtypes ++ [dt],
      rows := (df.rows.zip vals).map (fun rv => rv.1 ++ [rv.2]) }

/-- `pd.cut` interval search with the default `right=True`: the label of the
first interval `(lo, hi]` (left-open, right-closed) containing `x`; NaN when
`x` lies in no interval. -/
def cutLookup : List Int → List Cell → Int → Cell
  | lo :: hi :: bs, lab :: labs, x =>
    if lo < x ∧ x ≤ hi then lab else cutLookup (hi :: bs) labs x
  | _, _, _ => Cell.na

/-- `pd.cut` applied to one cell: non-integer cells (NaN) bin to NaN. -/
def cutCell (bins : List Int) (labels : List Cell) : Cell → Cell
  | Cell.int x => cutLookup bins labels x
  | _ => Cell.na

/-- Line 104: `pd.cut(x=df['age'], bins=[16,29,39,49,59,100], labels=[1,2,3,4,5])`. -/
def ageBinCell : Cell → Cell :=
  cutCell [16, 29, 39, 49, 59, 100]
    [Cell.int 1, Cell.int 2, Cell.int 3, Cell.int 4, Cell.int 5]

/-- Line 108: the dependent-variable lambda
`1 if x == 'Never-married' else 0` applied to `marital_status`. -/
def nmCell (x : Cell) : Cell :=
  if x = Cell.str "Never-married" then Cell.int 1 else Cell.int 0

/-- The Feature Builder (`feature_engineering`, lines 93-114): one-hot
expansion of seven categorical columns, age binning into `age_bins`, the
derived `never_married` label, then dropping `income_bracket_<=50K`,
`marital_status` and `age`. -/
def feature_engineering (df : DataFrame) : Option DataFrame :=
  if wfb df then
    (getDummies df "workclass" "workclass").bind (fun d1 =>
    (getDummies d1 "education" "education").bind (fun d2 =>
    (getDummies d2 "occupation" "occupation").bind (fun d3 =>
    (getDummies d3 "race" "race").bind (fun d4 =>
    (getDummies d4 "sex" "sex").bind (fun d5 =>
    (getDummies d5 "income_bracket" "income_bracket").bind (fun d6 =>
    (getDummies d6 "native_country" "native_country").bind (fun d7 =>
    (colVals d7 "age").bind (fun av =>
    (colVals (setColumn d7 "age_bins" DType.category (av.map ageBinCell))
        "marital_status").bind (fun mv =>
    dropColumns
      (setColumn (setColumn d7 "age_bins" DType.category (av.map ageBinCell))
        "never_married" DType.int64 (mv.map nmCell))
      ["income_bracket_<=50K", "marital_status", "age"])))))))))
  else none

/-- Step of the linear congruential generator standing in for the seeded
pseudo-random number stream consumed by the split's shuffler. -/
def lcgNext (s : Nat) : Nat := (1103515245 * s + 12345) % 2147483648

/-- Fisher-Yates selection: draw one position per step from the pool of
remaining indices, consuming one generator state per draw. -/
def shuffleIdx : Nat → Nat → List Nat → List Nat
  | 0, _, pool => pool
  | Nat.succ fuel, s, pool =>
    if pool.isEmpty then []
    else
      let k := s % pool.length
      pool.getD k 0 :: shuffleIdx fuel (lcgNext s) (pool.eraseIdx k)

/-- The pseudo-random permutation of `0..n-1` determined by `seed`. -/
def permSeed (seed n : Nat) : List Nat := shuffleIdx n seed (List.range n)

/-- Model of `sklearn.model_selection.train_test_split(X, y, test_size=0.2,
random_state=seed)` (line 132): a deterministic function of the input and the
seed.  The seeded permutation assigns the first `ceil(0.2*n)` shuffled rows to
the validation subset and the rest to the training subset; the external
library's exact permutation is modelled by `permSeed`, which preserves the
properties the claims depend on (determinism and the 80/20 partition of row
indices).  Result: (X_train, X_val, y_train, y_val). -/
def trainTestSplit (seed : Nat) (X : DataFrame) (y : List Cell) :
    DataFrame × DataFrame × List Cell × List Cell :=
  let n := X.rows.length
  let nTest := (n + 4) / 5
  let idx := permSeed seed n
  let testIdx := idx.take nTest
  let trainIdx := idx.drop nTest
  ({ X with rows := trainIdx.map (fun i => X.rows.getD i []) },
   { X with rows := testIdx.map (fun i => X.rows.getD i []) },
   trainIdx.map (fun i => y.getD i Cell.na),
   testIdx.map (fun i => y.getD i Cell.na))

/-- Lines 128-132: split the label column `never_married` off as the target
and partition the remaining frame with the fixed seed 55. -/
def cross_validation_split (df : DataFrame) :
    Option (DataFrame × DataFrame × List Cell × List Cell) :=
  match colVals df "never_married" with
  | none => none
  | some y => (dropColumns df ["never_married"]).map (fun X => trainTestSplit 55 X y)

/-- Line 172: `np.where(y_pred > 0.5, 1, 0)` on one predicted probability:
class 1 exactly when the probability exceeds 0.5.  Predicted probabilities
are embedded as rationals; the comparison against the exactly representable
constant 0.5 is order-faithful to the floating-point one. -/
def predClass (p : ℚ) : Nat := if (1 : ℚ) / 2 < p then 1 else 0

/-- Line 172 applied over the whole validation prediction vector. -/
def predClasses (ps : List ℚ) : List Nat := ps.map predClass

/-- Errors the tracking backend can raise from `mlflow.create_experiment`:
the "experiment already exists" condition, or any other failure (connectivity,
server errors, ...). -/
inductive TrackingError where
  | alreadyExists : TrackingError
  | otherError : String → TrackingError
deriving DecidableEq, Repr

/-- Lines 139-143 of `cross_validation`:

`try: mlflow.create_experiment('census_prediction')` followed by a bare
`except: pass`.  Given the outcome of the creation call against the backend,
the handler turns every exception into normal continuation. -/
def ensureExperiment (createResult : Except TrackingError Unit) : Except TrackingError Unit :=
  match createResult with
  | Except.ok u => Except.ok u
  | Except.error _ => Except.ok ()

/-- Concrete single-row input frame used to exhibit the in-place mutation of
the Cleaner. -/
def exC3in : DataFrame :=
  { cols := ["workclass", "occupation", "native_country", "education_num",
             "relationship", "functional_weight"],
    dtypes := [DType.object, DType.object, DType.object, DType.int64,
               DType.object, DType.int64],
    rows := [[Cell.str "A", Cell.str "B", Cell.str "C", Cell.int 1,
              Cell.str "D", Cell.int 2]] }

/-- Cleaned value of `exC3in` (three columns dropped). -/
def exC3out : DataFrame :=
  { cols := ["workclass", "occupation", "native_country"],
    dtypes := [DType.object, DType.object, DType.object],
    rows := [[Cell.str "A", Cell.str "B", Cell.str "C"]] }

/-- Concrete input whose two rows differ only in a column the Cleaner drops. -/
def exC4in : DataFrame :=
  { cols := ["workclass", "occupation", "native_country", "education_num",
             "relationship", "functional_weight"],
    dtypes := [DType.object, DType.object, DType.object, DType.int64,
               DType.object, DType.int64],
    rows := [[Cell.str "P", Cell.str "S", Cell.str "U", Cell.int 1,
              Cell.str "H", Cell.int 7],
             [Cell.str "P", Cell.str "S", Cell.str "U", Cell.int 2,
              Cell.str "H", Cell.int 7]] }

/-- Cleaned value of `exC4in`: the two surviving rows are identical. -/
def exC4out : DataFrame :=
  { cols := ["workclass", "occupation", "native_country"],
    dtypes := [DType.object, DType.object, DType.object],
    rows := [[Cell.str "P", Cell.str "S", Cell.str "U"],
             [Cell.str "P", Cell.str "S", Cell.str "U"]] }

/-- Concrete input with a literal `"?"` in the workclass column. -/
def exC5in : DataFrame :=
  { cols := ["workclass", "occupation", "native_country", "education_num",
             "relationship", "functional_weight"],
    dtypes := [DType.object, DType.object, DType.object, DType.int64,
               DType.object, DType.int64],
    rows := [[Cell.str "?", Cell.str "B", Cell.str "C", Cell.int 1,
              Cell.str "D", Cell.int 2]] }

/-- Cleaned value of `exC5in`: the `"?"` became `"Unknown"`. -/
def exC5out : DataFrame :=
  { cols := ["workclass", "occupation", "native_country"],
    dtypes := [DType.object, DType.object, DType.object],
    rows := [[Cell.str "Unknown", Cell.str "B", Cell.str "C"]] }

/-- Concrete two-row input for the Feature Builder whose marital statuses are
"Never-married" and "Divorced". -/
def exC6in : DataFrame :=
  { cols := ["age", "workclass", "education", "occupation", "race", "sex",
             "income_bracket", "native_country", "marital_status"],
    dtypes := [DType.int64, DType.object, DType.object, DType.object, DType.object,
               DType.object, DType.object, DType.object, DType.object],
    rows := [[Cell.int 25, Cell.str "Private", Cell.str "HS-grad", Cell.str "Sales",
              Cell.str "White", Cell.str "Male", Cell.str "<=50K", Cell.str "US",
              Cell.str "Never-married"],
             [Cell.int 61, Cell.str "State-gov", Cell.str "HS-grad", Cell.str "Sales",
              Cell.str "White", Cell.str "Female", Cell.str "<=50K", Cell.str "US",
              Cell.str "Divorced"]] }

/-- Feature-engineered value of `exC6in`. -/
def exC6out : DataFrame :=
  { cols := ["workclass_Private", "workclass_State-gov", "education_HS-grad",
             "occupation_Sales", "race_White", "sex_Female", "sex_Male",
             "native_country_US", "age_bins", "never_married"],
    dtypes := [DType.int64, DType.int64, DType.int64, DType.int64, DType.int64,
               DType.int64, DType.int64, DType.int64, DType.category, DType.int64],
    rows := [[Cell.int 1, Cell.int 0, Cell.int 1, Cell.int 1, Cell.int 1,
              Cell.int 0, Cell.int 1, Cell.int 1, Cell.int 1, Cell.int 1],
             [Cell.int 0, Cell.int 1, Cell.int 1, Cell.int 1, Cell.int 1,
              Cell.int 1, Cell.int 0, Cell.int 1, Cell.int 5, Cell.int 0]] }

/-- Concrete two-row Feature Builder input whose second row has a missing
workclass value. -/
def exC7in : DataFrame :=
  { cols := ["age", "workclass", "education", "occupation", "race", "sex",
             "income_bracket", "native_country", "marital_status"],
    dtypes := [DType.int64, DType.object, DType.object, DType.object, DType.object,
               DType.object, DType.object, DType.object, DType.object],
    rows := [[Cell.int 25, Cell.str "Private", Cell.str "HS-grad", Cell.str "Sales",
              Cell.str "White", Cell.str "Male", Cell.str "<=50K", Cell.str "US",
              Cell.str "Never-married"],
             [Cell.int 30, Cell.na, Cell.str "HS-grad", Cell.str "Sales",
              Cell.str "White", Cell.str "Male", Cell.str "<=50K", Cell.str "US",
              Cell.str "Married-civ-spouse"]] }

/-- Feature-engineered value of `exC7in`: the second row carries a 0 in the
single workclass indicator column. -/
def exC7out : DataFrame :=
  { cols := ["workclass_Private", "education_HS-grad", "occupation_Sales",
             "race_White", "sex_Male", "native_country_US", "age_bins",
             "never_married"],
    dtypes := [DType.int64, DType.int64, DType.int64, DType.int64, DType.int64,
               DType.int64, DType.category, DType.int64],
    rows := [[Cell.int 1, Cell.int 1, Cell.int 1, Cell.int 1, Cell.int 1,
              Cell.int 1, Cell.int 1, Cell.int 1],
             [Cell.int 0, Cell.int 1, Cell.int 1, Cell.int 1, Cell.int 1,
              Cell.int 1, Cell.int 2, Cell.int 0]] }

/-- One-column frame used to witness the one-hot row invariant. -/
def exC7g : DataFrame :=
  { cols := ["workclass"], dtypes := [DType.object],
    rows := [[Cell.str "A"], [Cell.na]] }

/-- One-hot expansion of `exC7g`. -/
def exC7gout : DataFrame :=
  { cols := ["workclass_A"], dtypes := [DType.int64],
    rows := [[Cell.int 1], [Cell.int 0]] }

/-- Five-row feature frame used to witness split determinism. -/
def exC8X : DataFrame :=
  { cols := ["a"], dtypes := [DType.int64],
    rows := [[Cell.int 1], [Cell.int 2], [Cell.int 3], [Cell.int 4], [Cell.int 5]] }

/-- Label column accompanying `exC8X`. -/
def exC8y : List Cell := [Cell.int 0, Cell.int 1, Cell.int 0, Cell.int 1, Cell.int 0]

/-- The (X_train, X_val, y_train, y_val) split of `exC8X`, `exC8y` at seed 55. -/
def exC8split : DataFrame × DataFrame × List Cell × List Cell :=
  ({ cols := ["a"], dtypes := [DType.int64],
     rows := [[Cell.int 2], [Cell.int 4], [Cell.int 3], [Cell.int 5]] },
   { cols := ["a"], dtypes := [DType.int64], rows := [[Cell.int 1]] },
   [Cell.int 1, Cell.int 1, Cell.int 0, Cell.int 0],
   [Cell.int 0])

/-- Concrete input whose workclass value is `"?"` surrounded by whitespace. -/
def exC10in : DataFrame :=
  { cols := ["workclass", "occupation", "native_country", "education_num",
             "relationship", "functional_weight"],
    dtypes := [DType.object, DType.object, DType.object, DType.int64,
               DType.object, DType.int64],
    rows := [[Cell.str "  ? ", Cell.str "B", Cell.str "C", Cell.int 1,
              Cell.str "D", Cell.int 2]] }

/-- Cleaned value of `exC10in`: the padded `"?"` became `"Unknown"`. -/
def exC10out : DataFrame :=
  { cols := ["workclass", "occupation", "native_country"],
    dtypes := [DType.object, DType.object, DType.object],
    rows := [[Cell.str "Unknown", Cell.str "B", Cell.str "C"]] }

/-- Membership reading of the Boolean column-name test. -/
theorem memStr_iff (c : String) (l : List String) : memStr c l = true ↔ c ∈ l := by
  induction l with
  | nil => simp [memStr]
  | cons k rest ih =>
    by_cases hk : k = c
    · subst hk; simp [memStr]
    · simp [memStr, hk, ih, Ne.symm hk]

/-- The Boolean row test for missing values agrees with membership of NaN. -/
theorem hasNaCell_iff (r : List Cell) : hasNaCell r = true ↔ Cell.na ∈ r := by
  induction r with
  | nil => simp [hasNaCell]
  | cons x xs ih =>
    by_cases hx : x = Cell.na
    · subst hx; simp [hasNaCell]
    · simp [hasNaCell, hx, ih, Ne.symm hx]

/-- Looking a surviving column up in a name-filtered frame finds the value it
had before filtering. -/
theorem lookupCol_keepCells {α : Type} (cols : List String) (r : List α)
    (P : String → Bool) (c : String) (hP : P c = true) :
    lookupCol c ((cols.filter P).zip (keepCells cols P r)) = lookupCol c (cols.zip r) := by
  induction cols generalizing r with
  | nil => simp [keepCells]
  | cons a cs ih =>
    cases r with
    | nil =>
      simp [keepCells, lookupCol]
    | cons x xs =>
      by_cases ha : P a
      · simp only [List.zip_cons_cons, keepCells, List.filter_cons, ha]
        by_cases hac : a = c
        · subst hac; simp [lookupCol, keepCells]
        · simpa [lookupCol, hac, keepCells] using ih xs
      · have hac : a ≠ c := by
          intro hh; rw [hh] at ha; rw [hP] at ha; exact ha rfl
        simp only [List.zip_cons_cons, keepCells, List.filter_cons, ha]
        simpa [lookupCol, hac, keepCells] using ih xs

/-- Rewriting the cells of every column named `c` leaves lookups of any other
column name unchanged (`h` is the per-entry replacement). -/
theorem lookupCol_mapZip_ne (cols : List String) (r : List Cell)
    (c c' : String) (h : String × Cell → Cell) (hne : c' ≠ c) :
    lookupCol c' (cols.zip ((cols.zip r).map (fun p => if p.1 = c then h p else p.2))) =
      lookupCol c' (cols.zip r) := by
  induction cols generalizing r with
  | nil => simp
  | cons a cs ih =>
    cases r with
    | nil => simp [lookupCol]
    | cons x xs =>
      by_cases hac : a = c'
      · subst hac
        simp [lookupCol, hne]
      · simpa [lookupCol, hac] using ih xs

/-- Rewriting the cells of every column named `c` makes the lookup of `c`
return the replacement applied to the previous first value. -/
theorem lookupCol_mapZip_eq (cols : List String) (r : List Cell)
    (c : String) (h : String × Cell → Cell) :
    lookupCol c (cols.zip ((cols.zip r).map (fun p => if p.1 = c then h p else p.2))) =
      (lookupCol c (cols.zip r)).map (fun v => h (c, v)) := by
  induction cols generalizing r with
  | nil => simp [lookupCol]
  | cons a cs ih =>
    cases r with
    | nil => simp [lookupCol]
    | cons x xs =>
      by_cases hac : a = c
      · subst hac; simp [lookupCol]
      · simpa [lookupCol, hac] using ih xs

/-- Looking a column up in a stripped row applies the trim exactly when the
column's dtype (aligned by position) is `object`. -/
theorem lookupCol_stripRow (cols : List String) (dtypes : List DType) (r : List Cell)
    (c : String) :
    lookupCol c (cols.zip (stripRow dtypes r)) =
      (lookupCol c (cols.zip (dtypes.zip r))).map
        (fun p => if p.1 = DType.object then trimCell p.2 else p.2) := by
  induction cols generalizing dtypes r with
  | nil => simp [lookupCol]
  | cons a cs ih =>
    cases dtypes with
    | nil => simp [stripRow, lookupCol]
    | cons d ds =>
      cases r with
      | nil => simp [stripRow, lookupCol]
      | cons x xs =>
        by_cases hac : a = c
        · subst hac; simp [stripRow, lookupCol]
        · simpa [stripRow, lookupCol, hac] using ih ds xs

/-- Combining a dtype lookup and a value lookup into a lookup over the
position-aligned pairing. -/
theorem lookupCol_zip_pair (cols : List String) (dtypes : List DType) (r : List Cell)
    (c : String) (dt : DType) (v : Cell)
    (hdt : lookupCol c (cols.zip dtypes) = some dt)
    (hv : lookupCol c (cols.zip r) = some v) :
    lookupCol c (cols.zip (dtypes.zip r)) = some (dt, v) := by
  induction cols generalizing dtypes r with
  | nil => simp [lookupCol] at hdt
  | cons a cs ih =>
    cases dtypes with
    | nil => simp [lookupCol] at hdt
    | cons d ds =>
      cases r with
      | nil => simp [lookupCol] at hv
      | cons x xs =>
        by_cases hac : a = c
        · subst hac
          simp only [List.zip_cons_cons, lookupCol, if_pos] at hdt hv ⊢
          simp at hdt hv
          simp [hdt, hv]
        · simp only [List.zip_cons_cons, lookupCol, if_neg hac] at hdt hv ⊢
          exact ih ds xs hdt hv

/-- A lookup that succeeds on a front segment is unchanged by appending. -/
theorem lookupCol_append_some {α : Type} (l1 l2 : List (String × α)) (c : String)
    (v : α) (h : lookupCol c l1 = some v) : lookupCol c (l1 ++ l2) = some v := by
  induction l1 with
  | nil => simp [lookupCol] at h
  | cons p rest ih =>
    by_cases hp : p.1 = c
    · cases p
      simp_all [lookupCol]
    · cases p
      simp only [lookupCol] at h
      simp_all [lookupCol]

/-- A lookup that fails on a front segment continues into the appended part. -/
theorem lookupCol_append_none {α : Type} (l1 l2 : List (String × α)) (c : String)
    (h : lookupCol c l1 = none) : lookupCol c (l1 ++ l2) = lookupCol c l2 := by
  induction l1 with
  | nil => simp
  | cons p rest ih =>
    obtain ⟨k, v⟩ := p
    simp only [lookupCol] at h
    by_cases hp : k = c <;> simp_all [lookupCol]

/-- An absent column name yields no lookup result over any row pairing. -/
theorem lookupCol_zip_none {α : Type} (cols : List String) (r : List α) (c : String)
    (h : memStr c cols = false) : lookupCol c (cols.zip r) = none := by
  induction cols generalizing r with
  | nil => simp [lookupCol]
  | cons a cs ih =>
    cases r with
    | nil => simp [lookupCol]
    | cons x xs =>
      simp only [memStr] at h
      by_cases ha : a = c
      · rw [if_pos ha] at h; cases h
      · rw [if_neg ha] at h
        simpa [lookupCol, ha] using ih xs h

/-- A present column name yields a lookup result when the row covers every
column. -/
theorem lookupCol_zip_isSome {α : Type} (cols : List String) (r : List α) (c : String)
    (hmem : memStr c cols = true) (hlen : r.length = cols.length) :
    ∃ v, lookupCol c (cols.zip r) = some v := by
  induction cols generalizing r with
  | nil => simp [memStr] at hmem
  | cons a cs ih =>
    cases r with
    | nil => simp at hlen
    | cons x xs =>
      by_cases ha : a = c
      · exact ⟨x, by simp [lookupCol, ha]⟩
      · simp only [memStr, if_neg ha] at hmem
        simp only [List.length_cons, Nat.succ.injEq] at hlen
        obtain ⟨v, hv⟩ := ih xs hmem hlen
        refine ⟨v, ?_⟩
        simpa [lookupCol, ha] using hv

/-- Name-filtering a full-width row keeps exactly one cell per kept column. -/
theorem keepCells_length {α : Type} (cols : List String) (P : String → Bool)
    (r : List α) (hlen : r.length = cols.length) :
    (keepCells cols P r).length = (cols.filter P).length := by
  induction cols generalizing r with
  | nil => cases r with
    | nil => simp [keepCells]
    | cons x xs => simp at hlen
  | cons a cs ih =>
    cases r with
    | nil => simp at hlen
    | cons x xs =>
      simp only [List.length_cons, Nat.succ.injEq] at hlen
      by_cases ha : P a <;>
        simp [keepCells, List.filter_cons, ha, ← ih xs hlen, keepCells]

/-- Zipping distributes over appending lists of equal front length. -/
theorem zip_append_eq {α β : Type} (l1 l2 : List α) (r1 r2 : List β)
    (h : l1.length = r1.length) :
    (l1 ++ l2).zip (r1 ++ r2) = l1.zip r1 ++ l2.zip r2 := by
  induction l1 generalizing r1 with
  | nil => cases r1 with
    | nil => simp
    | cons y ys => simp at h
  | cons x xs ih =>
    cases r1 with
    | nil => simp at h
    | cons y ys =>
      simp only [List.length_cons, Nat.succ.injEq] at h
      simp [ih ys h]

/-- Every cell of a name-filtered row was a cell of the row. -/
theorem mem_keepCells {α : Type} (cols : List String) (P : String → Bool)
    (r : List α) (x : α) (hx : x ∈ keepCells cols P r) : x ∈ r := by
  simp only [keepCells, List.mem_map, List.mem_filter] at hx
  obtain ⟨p, ⟨hp, _⟩, hpx⟩ := hx
  exact hpx ▸ (List.of_mem_zip hp).2

/-- A missing value surviving the `"?"` rename was already missing. -/
theorem qToUnknown_eq_na (x : Cell) (h : qToUnknown x = Cell.na) : x = Cell.na := by
  by_cases hx : x = Cell.str "?" <;> simp_all [qToUnknown]

/-- The `"?"` rename never outputs the literal `"?"`. -/
theorem qToUnknown_ne_q (x : Cell) : qToUnknown x ≠ Cell.str "?" := by
  by_cases hx : x = Cell.str "?" <;> simp_all [qToUnknown]

/-- A missing value surviving trimming was already missing. -/
theorem trimCell_eq_na (x : Cell) (h : trimCell x = Cell.na) : x = Cell.na := by
  cases x <;> simp_all [trimCell]

/-- If a missing value appears in a renamed row it was in the row before. -/
theorem mem_applyRow_na (cols : List String) (c : String) (r : List Cell)
    (h : Cell.na ∈ applyRow cols c qToUnknown r) : Cell.na ∈ r := by
  simp only [applyRow, List.mem_map] at h
  obtain ⟨p, hp, hpx⟩ := h
  have hmem := (List.of_mem_zip hp).2
  by_cases hc : p.1 = c
  · simp only [if_pos hc] at hpx
    exact qToUnknown_eq_na _ hpx ▸ hmem
  · simp only [if_neg hc] at hpx
    exact hpx ▸ hmem

/-- If a missing value appears in a trimmed row it was in the row before. -/
theorem mem_stripRow_na (dtypes : List DType) (r : List Cell)
    (h : Cell.na ∈ stripRow dtypes r) : Cell.na ∈ r := by
  simp only [stripRow, List.mem_map] at h
  obtain ⟨p, hp, hpx⟩ := h
  have hmem := (List.of_mem_zip hp).2
  by_cases hc : p.1 = DType.object
  · simp only [if_pos hc] at hpx
    exact trimCell_eq_na _ hpx ▸ hmem
  · simp only [if_neg hc] at hpx
    exact hpx ▸ hmem

/-- Characterisation of first-occurrence deduplication: the kept rows are the
incoming rows not already seen. -/
theorem mem_dedupRowsAux (l : List (List Cell)) (seen : List (List Cell))
    (x : List Cell) : x ∈ dedupRowsAux seen l ↔ x ∈ l ∧ x ∉ seen := by
  induction l generalizing seen with
  | nil => simp [dedupRowsAux]
  | cons r rs ih =>
    by_cases hr : r ∈ seen
    · rw [dedupRowsAux, if_pos hr, ih]
      constructor
      · rintro ⟨h1, h2⟩; exact ⟨List.mem_cons_of_mem _ h1, h2⟩
      · rintro ⟨h1, h2⟩
        rcases List.mem_cons.mp h1 with h | h
        · exact absurd (h ▸ hr) h2
        · exact ⟨h, h2⟩
    · rw [dedupRowsAux, if_neg hr]
      constructor
      · intro hx
        rcases List.mem_cons.mp hx with h | h
        · exact ⟨h ▸ List.mem_cons_self r rs, h ▸ hr⟩
        · obtain ⟨h1, h2⟩ := (ih _).mp h
          refine ⟨List.mem_cons_of_mem _ h1, fun hs => h2 (List.mem_cons_of_mem _ hs)⟩
      · rintro ⟨h1, h2⟩
        rcases List.mem_cons.mp h1 with h | h
        · exact h ▸ List.mem_cons_self x (dedupRowsAux (r :: seen) rs)
        · by_cases hxr : x = r
          · exact hxr ▸ List.mem_cons_self r (dedupRowsAux (r :: seen) rs)
          · refine List.mem_cons_of_mem _ ((ih _).mpr ⟨h, ?_⟩)
            intro hs
            rcases List.mem_cons.mp hs with h' | h'
            · exact hxr h'
            · exact h2 h'

/-- Column-count agreement extracted from well-formedness. -/
theorem wfb_dtypes_len (df : DataFrame) (h : wfb df = true) :
    df.dtypes.length = df.cols.length := by
  simp only [wfb, Bool.and_eq_true, beq_iff_eq] at h
  exact h.1

/-- Row-width agreement extracted from well-formedness. -/
theorem wfb_rows_len (df : DataFrame) (h : wfb df = true) :
    ∀ r ∈ df.rows, r.length = df.cols.length := by
  intro r hr
  simp only [wfb, Bool.and_eq_true, List.all_eq_true, beq_iff_eq] at h
  exact (h.2 r hr).1

/-- Inversion of a successful Cleaner run: the input was well-formed, the
output columns are the input columns minus the three dropped ones, and every
output row is the strip / rename / column-drop transform of a distinct
NaN-free input row. -/
theorem preprocessing_inv (df out : DataFrame) (h : preprocessing df = some out) :
    wfb df = true ∧
    out.cols = df.cols.filter
      (fun k => !(memStr k ["education_num", "relationship", "functional_weight"])) ∧
    out.rows = (dedupRowsAux [] (df.rows.filter (fun r => !(hasNaCell r)))).map
      (fun r => keepCells df.cols
        (fun k => !(memStr k ["education_num", "relationship", "functional_weight"]))
        (applyRow df.cols "native_country" qToUnknown
          (applyRow df.cols "occupation" qToUnknown
            (applyRow df.cols "workclass" qToUnknown (stripRow df.dtypes r))))) := by
  simp only [preprocessing, applyCol, dropColumns, drop_duplicates, dropna,
    stripObjectCols] at h
  by_cases hw : wfb df
  · rw [if_pos hw] at h
    by_cases h1 : memStr "workclass" df.cols
    · rw [if_pos h1] at h
      simp only [Option.some_bind] at h
      by_cases h2 : memStr "occupation" df.cols
      · rw [if_pos h2] at h
        simp only [Option.some_bind] at h
        by_cases h3 : memStr "native_country" df.cols
        · rw [if_pos h3] at h
          simp only [Option.some_bind] at h
          by_cases h4 : List.all ["education_num", "relationship", "functional_weight"]
              (fun c => memStr c df.cols)
          · rw [if_pos h4] at h
            have hout := Option.some.inj h
            subst hout
            refine ⟨hw, rfl, ?_⟩
            simp [List.map_map, Function.comp]
          · rw [if_neg h4] at h
            cases h
        · rw [if_neg h3] at h
          simp at h
      · rw [if_neg h2] at h
        simp at h
    · rw [if_neg h1] at h
      simp at h
  · rw [if_neg hw] at h
    cases h

/-- Characterisation of first-occurrence deduplication of cells. -/
theorem mem_dedupCellsAux (l : List Cell) (seen : List Cell) (x : Cell) :
    x ∈ dedupCellsAux seen l ↔ x ∈ l ∧ x ∉ seen := by
  induction l generalizing seen with
  | nil => simp [dedupCellsAux]
  | cons v vs ih =>
    by_cases hv : v ∈ seen
    · rw [dedupCellsAux, if_pos hv, ih]
      constructor
      · rintro ⟨h1, h2⟩; exact ⟨List.mem_cons_of_mem _ h1, h2⟩
      · rintro ⟨h1, h2⟩
        rcases List.mem_cons.mp h1 with h | h
        · exact absurd (h ▸ hv) h2
        · exact ⟨h, h2⟩
    · rw [dedupCellsAux, if_neg hv]
      constructor
      · intro hx
        rcases List.mem_cons.mp hx with h | h
        · exact ⟨h ▸ List.mem_cons_self v vs, h ▸ hv⟩
        · obtain ⟨h1, h2⟩ := (ih _).mp h
          exact ⟨List.mem_cons_of_mem _ h1, fun hs => h2 (List.mem_cons_of_mem _ hs)⟩
      · rintro ⟨h1, h2⟩
        rcases List.mem_cons.mp h1 with h | h
        · exact h ▸ List.mem_cons_self x (dedupCellsAux (v :: seen) vs)
        · by_cases hxv : x = v
          · exact hxv ▸ List.mem_cons_self v (dedupCellsAux (v :: seen) vs)
          · refine List.mem_cons_of_mem _ ((ih _).mpr ⟨h, ?_⟩)
            intro hs
            rcases List.mem_cons.mp hs with h' | h'
            · exact hxv h'
            · exact h2 h'

/-- First-occurrence deduplication of cells produces no duplicates. -/
theorem nodup_dedupCellsAux (l : List Cell) (seen : List Cell) :
    (dedupCellsAux seen l).Nodup := by
  induction l generalizing seen with
  | nil => simp [dedupCellsAux]
  | cons v vs ih =>
    by_cases hv : v ∈ seen
    · rw [dedupCellsAux, if_pos hv]; exact ih seen
    · rw [dedupCellsAux, if_neg hv]
      refine List.nodup_cons.mpr ⟨?_, ih (v :: seen)⟩
      intro hmem
      exact ((mem_dedupCellsAux _ _ _).mp hmem).2 (List.mem_cons_self v seen)

/-- Ordered insertion permutes to consing. -/
theorem insertCell_perm (x : Cell) (l : List Cell) : (insertCell x l).Perm (x :: l) := by
  induction l with
  | nil => simp [insertCell]
  | cons y ys ih =>
    by_cases hle : cellLe x y
    · simp [insertCell, hle]
    · rw [insertCell, if_neg hle]
      exact (List.Perm.cons y ih).trans (List.Perm.swap x y ys)

/-- Insertion sort permutes its input. -/
theorem sortCells_perm (l : List Cell) : (sortCells l).Perm l := by
  induction l with
  | nil => simp [sortCells]
  | cons x xs ih =>
    exact (insertCell_perm x (sortCells xs)).trans (List.Perm.cons x ih)

/-- Membership in the distinct category values of a column. -/
theorem mem_distinctVals (vs : List Cell) (x : Cell) :
    x ∈ distinctVals vs ↔ x ∈ vs ∧ x ≠ Cell.na := by
  rw [distinctVals, (sortCells_perm _).mem_iff, mem_dedupCellsAux]
  simp [List.mem_filter]

/-- The distinct category values carry no duplicates. -/
theorem nodup_distinctVals (vs : List Cell) : (distinctVals vs).Nodup := by
  rw [distinctVals]
  exact (sortCells_perm _).nodup_iff.mpr (nodup_dedupCellsAux _ _)

/-- Inversion of a successful one-hot expansion: the source column was
present, the remaining columns keep their order, and each output row is the
kept cells followed by the indicator block of the row's source value. -/
theorem getDummies_inv (df d' : DataFrame) (pfx c : String)
    (h : getDummies df pfx c = some d') :
    memStr c df.cols = true ∧
    d'.cols = df.cols.filter (fun k => !(k == c)) ++
      (distinctVals (df.rows.map (fun r => rowValD df.cols r c))).map (dummyName pfx) ∧
    d'.rows = df.rows.map (fun r =>
      keepCells df.cols (fun k => !(k == c)) r ++
      indicatorRow (distinctVals (df.rows.map (fun r => rowValD df.cols r c)))
        (rowValD df.cols r c)) := by
  rw [getDummies] at h
  by_cases hc : memStr c df.cols
  · rw [if_pos hc] at h
    have hout := Option.some.inj h
    subst hout
    exact ⟨hc, rfl, rfl⟩
  · rw [if_neg hc] at h
    cases h

/-- A column read off a frame has one value per row. -/
theorem colVals_length (df : DataFrame) (c : String) (vs : List Cell)
    (h : colVals df c = some vs) : vs.length = df.rows.length := by
  rw [colVals] at h
  by_cases hc : memStr c df.cols
  · rw [if_pos hc] at h
    rw [← Option.some.inj h, List.length_map]
  · rw [if_neg hc] at h
    cases h

/-- Setting the first column of a row-aligned replacement: reading back the
assigned column returns the assigned values. -/
theorem map_rowVal_zipRows_self (cols' : List String) (c : String)
    (rows : List (List Cell)) (vals : List Cell) (g : List Cell × Cell → List Cell)
    (hvlen : vals.length = rows.length)
    (hpt : ∀ r ∈ rows, ∀ v, rowValD cols' (g (r, v)) c = v) :
    ((rows.zip vals).map g).map (fun r => rowValD cols' r c) = vals := by
  induction rows generalizing vals with
  | nil =>
    cases vals with
    | nil => simp
    | cons v vs => simp at hvlen
  | cons r rs ih =>
    cases vals with
    | nil => simp at hvlen
    | cons v vs =>
      simp only [List.length_cons, Nat.succ.injEq] at hvlen
      simp only [List.zip_cons_cons, List.map_cons]
      rw [hpt r (List.mem_cons_self r rs) v,
        ih vs hvlen (fun r' hr' => hpt r' (List.mem_cons_of_mem _ hr'))]

/-- Row-aligned replacement of one column: reading back any untouched column
returns its previous values. -/
theorem map_rowVal_zipRows_ne (cols' cols : List String) (c' : String)
    (rows : List (List Cell)) (vals : List Cell) (g : List Cell × Cell → List Cell)
    (hvlen : vals.length = rows.length)
    (hpt : ∀ r ∈ rows, ∀ v, rowValD cols' (g (r, v)) c' = rowValD cols r c') :
    ((rows.zip vals).map g).map (fun r => rowValD cols' r c') =
      rows.map (fun r => rowValD cols r c') := by
  induction rows generalizing vals with
  | nil =>
    cases vals with
    | nil => simp
    | cons v vs => simp at hvlen
  | cons r rs ih =>
    cases vals with
    | nil => simp at hvlen
    | cons v vs =>
      simp only [List.length_cons, Nat.succ.injEq] at hvlen
      simp only [List.zip_cons_cons, List.map_cons]
      rw [hpt r (List.mem_cons_self r rs) v,
        ih vs hvlen (fun r' hr' => hpt r' (List.mem_cons_of_mem _ hr'))]

/-- One-hot expansion leaves the values of every other present column intact. -/
theorem getDummies_colVals (df d' : DataFrame) (pfx c c' : String) (vs : List Cell)
    (h : getDummies df pfx c = some d')
    (hlen : ∀ r ∈ df.rows, r.length = df.cols.length)
    (hne : c' ≠ c)
    (hcv : colVals df c' = some vs) :
    colVals d' c' = some vs := by
  obtain ⟨hc, hcols, hrows⟩ := getDummies_inv df d' pfx c h
  rw [colVals] at hcv
  by_cases hm : memStr c' df.cols
  case neg => rw [if_neg hm] at hcv; cases hcv
  rw [if_pos hm] at hcv
  have hm' : memStr c' d'.cols = true := by
    rw [hcols, memStr_iff]
    exact List.mem_append_left _
      (List.mem_filter.mpr ⟨(memStr_iff _ _).mp hm, by simp [hne]⟩)
  rw [colVals, if_pos hm', hrows, List.map_map]
  rw [← hcv]
  refine congrArg some (List.map_congr_left ?_)
  intro r hr
  simp only [Function.comp]
  obtain ⟨v, hv⟩ := lookupCol_zip_isSome df.cols r c' hm (hlen r hr)
  have hP : (fun k => !(k == c)) c' = true := by simp [hne]
  have hkeep : lookupCol c'
      ((df.cols.filter (fun k => !(k == c))).zip
        (keepCells df.cols (fun k => !(k == c)) r)) = some v := by
    rw [lookupCol_keepCells _ _ _ _ hP]; exact hv
  rw [rowValD, rowValD, hcols,
    zip_append_eq _ _ _ _ (by rw [keepCells_length _ _ _ (hlen r hr)]),
    lookupCol_append_some _ _ _ _ hkeep]
  rw [rowValD, hv]

/-- Reading back an assigned column returns the assigned values. -/
theorem setColumn_colVals_self (df : DataFrame) (c : String) (dt : DType)
    (vals : List Cell)
    (hlen : ∀ r ∈ df.rows, r.length = df.cols.length)
    (hvlen : vals.length = df.rows.length) :
    colVals (setColumn df c dt vals) c = some vals := by
  rw [setColumn]
  by_cases hc : memStr c df.cols
  · rw [if_pos hc, colVals]
    simp only
    rw [if_pos hc]
    refine congrArg some ?_
    refine map_rowVal_zipRows_self df.cols c df.rows vals _ hvlen ?_
    intro r hr v
    obtain ⟨u, hu⟩ := lookupCol_zip_isSome df.cols r c hc (hlen r hr)
    rw [rowValD, lookupCol_mapZip_eq, hu]
    rfl
  · rw [if_neg hc, colVals]
    simp only
    have hm : memStr c (df.cols ++ [c]) = true :=
      (memStr_iff _ _).mpr (List.mem_append_right _ (List.mem_singleton_self c))
    rw [if_pos hm]
    refine congrArg some ?_
    refine map_rowVal_zipRows_self (df.cols ++ [c]) c df.rows vals _ hvlen ?_
    intro r hr v
    simp only
    rw [rowValD, zip_append_eq _ _ _ _ (hlen r hr).symm,
      lookupCol_append_none _ _ _ (lookupCol_zip_none _ _ _ (Bool.not_eq_true _ ▸ hc))]
    simp [lookupCol]

/-- Assigning one column leaves the values of any other present column intact. -/
theorem setColumn_colVals_ne (df : DataFrame) (c c' : String) (dt : DType)
    (vals vs : List Cell)
    (hlen : ∀ r ∈ df.rows, r.length = df.cols.length)
    (hvlen : vals.length = df.rows.length)
    (hne : c' ≠ c)
    (hcv : colVals df c' = some vs) :
    colVals (setColumn df c dt vals) c' = some vs := by
  rw [colVals] at hcv
  by_cases hm : memStr c' df.cols
  case neg => rw [if_neg hm] at hcv; cases hcv
  rw [if_pos hm] at hcv
  rw [setColumn]
  by_cases hc : memStr c df.cols
  · rw [if_pos hc, colVals]
    simp only
    rw [if_pos hm, ← Option.some.inj hcv]
    refine congrArg some ?_
    refine map_rowVal_zipRows_ne df.cols df.cols c' df.rows vals _ hvlen ?_
    intro r hr v
    rw [rowValD, rowValD, lookupCol_mapZip_ne _ _ _ _ _ hne]
  · rw [if_neg hc, colVals]
    simp only
    have hm2 : memStr c' (df.cols ++ [c]) = true :=
      (memStr_iff _ _).mpr (List.mem_append_left _ ((memStr_iff _ _).mp hm))
    rw [if_pos hm2, ← Option.some.inj hcv]
    refine congrArg some ?_
    refine map_rowVal_zipRows_ne (df.cols ++ [c]) df.cols c' df.rows vals _ hvlen ?_
    intro r hr v
    obtain ⟨u, hu⟩ := lookupCol_zip_isSome df.cols r c' hm (hlen r hr)
    simp only
    rw [rowValD, rowValD, zip_append_eq _ _ _ _ (hlen r hr).symm,
      lookupCol_append_some _ _ _ _ hu, hu]

/-- Dropping other columns leaves the values of a surviving column intact. -/
theorem dropColumns_colVals (df d' : DataFrame) (cs : List String) (c : String)
    (vs : List Cell)
    (h : dropColumns df cs = some d')
    (hcs : memStr c cs = false)
    (hcv : colVals df c = some vs) :
    colVals d' c = some vs := by
  rw [colVals] at hcv
  by_cases hm : memStr c df.cols
  case neg => rw [if_neg hm] at hcv; cases hcv
  rw [if_pos hm] at hcv
  rw [dropColumns] at h
  by_cases hall : List.all cs (fun c => memStr c df.cols)
  case neg => rw [if_neg hall] at h; cases h
  rw [if_pos hall] at h
  have hout := Option.some.inj h
  subst hout
  have hP : (fun k => !(memStr k cs)) c = true := by simp [hcs]
  have hm' : memStr c (df.cols.filter (fun k => !(memStr k cs))) = true :=
    (memStr_iff _ _).mpr (List.mem_filter.mpr ⟨(memStr_iff _ _).mp hm, hP⟩)
  rw [colVals]
  simp only
  rw [if_pos hm', ← Option.some.inj hcv, List.map_map]
  refine congrArg some (List.map_congr_left ?_)
  intro r hr
  simp only [Function.comp]
  rw [rowValD, rowValD, lookupCol_keepCells _ _ _ _ hP]

/-- One-hot expansion keeps rows full-width. -/
theorem getDummies_wfRows (df d' : DataFrame) (pfx c : String)
    (h : getDummies df pfx c = some d')
    (hlen : ∀ r ∈ df.rows, r.length = df.cols.length) :
    ∀ r' ∈ d'.rows, r'.length = d'.cols.length := by
  obtain ⟨hc, hcols, hrows⟩ := getDummies_inv df d' pfx c h
  intro r' hr'
  rw [hrows] at hr'
  obtain ⟨r, hr, rfl⟩ := List.mem_map.mp hr'
  rw [hcols]
  simp [keepCells_length _ _ _ (hlen r hr), indicatorRow]

/-- One-hot expansion keeps the row count. -/
theorem getDummies_rows_len (df d' : DataFrame) (pfx c : String)
    (h : getDummies df pfx c = some d') : d'.rows.length = df.rows.length := by
  obtain ⟨hc, hcols, hrows⟩ := getDummies_inv df d' pfx c h
  rw [hrows, List.length_map]

/-- Column assignment keeps rows full-width. -/
theorem setColumn_wfRows (df : DataFrame) (c : String) (dt : DType)
    (vals : List Cell)
    (hlen : ∀ r ∈ df.rows, r.length = df.cols.length) :
    ∀ r' ∈ (setColumn df c dt vals).rows, r'.length = (setColumn df c dt vals).cols.length := by
  intro r' hr'
  rw [setColumn] at hr' ⊢
  by_cases hc : memStr c df.cols
  · rw [if_pos hc] at hr' ⊢
    simp only at hr' ⊢
    obtain ⟨rv, hrv, rfl⟩ := List.mem_map.mp hr'
    have h1 : rv.1 ∈ df.rows := (List.of_mem_zip (by exact hrv)).1
    simp [List.length_zip, hlen rv.1 h1]
  · rw [if_neg hc] at hr' ⊢
    simp only at hr' ⊢
    obtain ⟨rv, hrv, rfl⟩ := List.mem_map.mp hr'
    have h1 : rv.1 ∈ df.rows := (List.of_mem_zip (by exact hrv)).1
    simp [hlen rv.1 h1]

/-- Column assignment of row-aligned values keeps the row count. -/
theorem setColumn_rows_len (df : DataFrame) (c : String) (dt : DType)
    (vals : List Cell) (hvlen : vals.length = df.rows.length) :
    (setColumn df c dt vals).rows.length = df.rows.length := by
  rw [setColumn]
  by_cases hc : memStr c df.cols <;>
    simp [hc, List.length_zip, hvlen]

/-- Reading a mapped list at an in-range position applies the function to the
original entry. -/
theorem getD_map_lt {α β : Type} (l : List α) (g : α → β) (i : Nat)
    (hlt : i < l.length) (d : β) (d0 : α) :
    (l.map g).getD i d = g (l.getD i d0) := by
  induction l generalizing i with
  | nil => simp at hlt
  | cons x xs ih =>
    cases i with
    | zero => simp
    | succ n =>
      simp only [List.map_cons, List.getD_cons_succ]
      exact ih n (by simpa using hlt)

/-- Every indicator cell is a 0 or a 1. -/
theorem indicatorRow_all01 (dvs : List Cell) (v : Cell) :
    (indicatorRow dvs v).all (fun x => decide (x = Cell.int 0 ∨ x = Cell.int 1)) = true := by
  rw [List.all_eq_true]
  intro x hx
  rw [decide_eq_true_eq]
  obtain ⟨u, _, rfl⟩ := List.mem_map.mp hx
  by_cases hu : u = v
  · right; rw [if_pos hu]
  · left; rw [if_neg hu]

/-- The indicator block carries as many ones as the category list carries
copies of the encoded value. -/
theorem indicatorRow_count (dvs : List Cell) (v : Cell) :
    (indicatorRow dvs v).count (Cell.int 1) = dvs.count v := by
  induction dvs with
  | nil => simp [indicatorRow]
  | cons u us ih =>
    simp only [indicatorRow] at ih ⊢
    by_cases hu : u = v
    · subst hu
      simp [List.count_cons, ih]
    · simp [List.count_cons, hu, ih]

/-- An absent value never pairs its indicator name with a 1. -/
theorem indicatorRow_pairs_count_zero (pfx : String) (dvs : List Cell) (v : Cell)
    (hv : v ∉ dvs) :
    ((dvs.map (dummyName pfx)).zip (indicatorRow dvs v)).count
      (dummyName pfx v, Cell.int 1) = 0 := by
  induction dvs with
  | nil => simp [indicatorRow]
  | cons u us ih =>
    have hu : u ≠ v := fun hh => hv (hh ▸ List.mem_cons_self u us)
    have htail : v ∉ us := fun hh => hv (List.mem_cons_of_mem _ hh)
    simp only [List.map_cons, indicatorRow, List.zip_cons_cons, List.count_cons,
      if_neg hu]
    rw [← indicatorRow]
    simp [ih htail, hu]

/-- For a present value in a duplicate-free category list, exactly one
indicator pairs the value's column name with a 1. -/
theorem indicatorRow_pairs_count (pfx : String) (dvs : List Cell) (v : Cell)
    (hnd : dvs.Nodup) (hv : v ∈ dvs) :
    ((dvs.map (dummyName pfx)).zip (indicatorRow dvs v)).count
      (dummyName pfx v, Cell.int 1) = 1 := by
  induction dvs with
  | nil => cases hv
  | cons u us ih =>
    obtain ⟨hnotin, hnd'⟩ := List.nodup_cons.mp hnd
    by_cases hu : u = v
    · subst hu
      simp only [List.map_cons, indicatorRow, List.zip_cons_cons, List.count_cons,
        if_pos rfl]
      rw [← indicatorRow]
      simp [indicatorRow_pairs_count_zero pfx us u hnotin]
    · have hv' : v ∈ us := by
        rcases List.mem_cons.mp hv with hh | hh
        · exact absurd hh.symm hu
        · exact hh
      simp only [List.map_cons, indicatorRow, List.zip_cons_cons, List.count_cons,
        if_neg hu]
      rw [← indicatorRow]
      simp [ih hnd' hv', hu]

/-- Per-row value of the Cleaner's strip / rename / drop chain at one of the
three renamed columns: the surviving value is the renamed stripped value. -/
theorem rowVal_pp_chain (cols : List String) (dtypes : List DType) (r : List Cell)
    (c : String)
    (hc : c = "workclass" ∨ c = "occupation" ∨ c = "native_country") :
    rowValD
      (cols.filter (fun k => !(memStr k ["education_num", "relationship", "functional_weight"])))
      (keepCells cols (fun k => !(memStr k ["education_num", "relationship", "functional_weight"]))
        (applyRow cols "native_country" qToUnknown
          (applyRow cols "occupation" qToUnknown
            (applyRow cols "workclass" qToUnknown (stripRow dtypes r))))) c =
    qToUnknown (rowValD cols (stripRow dtypes r) c) := by
  have hP : (fun k => !(memStr k ["education_num", "relationship", "functional_weight"])) c
      = true := by
    rcases hc with rfl | rfl | rfl <;> decide
  rw [rowValD, lookupCol_keepCells _ _ _ _ hP]
  simp only [applyRow]
  rcases hc with rfl | rfl | rfl
  · rw [lookupCol_mapZip_ne _ _ _ _ _ (by decide),
      lookupCol_mapZip_ne _ _ _ _ _ (by decide),
      lookupCol_mapZip_eq]
    rcases hl : lookupCol "workclass" (cols.zip (stripRow dtypes r)) with _ | u <;>
      simp [rowValD, hl, qToUnknown]
  · rw [lookupCol_mapZip_ne _ _ _ _ _ (by decide),
      lookupCol_mapZip_eq]
    rcases hl : lookupCol "occupation"
        (cols.zip ((cols.zip (stripRow dtypes r)).map
          (fun p => if p.1 = "workclass" then qToUnknown p.2 else p.2))) with _ | u
    · rw [hl]
      rw [lookupCol_mapZip_ne _ _ _ _ _ (by decide)] at hl
      simp [rowValD, hl, qToUnknown]
    · rw [hl]
      rw [lookupCol_mapZip_ne _ _ _ _ _ (by decide)] at hl
      simp [rowValD, hl, qToUnknown]
  · rw [lookupCol_mapZip_eq]
    rcases hl : lookupCol "native_country"
        (cols.zip ((cols.zip ((cols.zip (stripRow dtypes r)).map
            (fun p => if p.1 = "workclass" then qToUnknown p.2 else p.2))).map
          (fun p => if p.1 = "occupation" then qToUnknown p.2 else p.2))) with _ | u
    · rw [hl]
      rw [lookupCol_mapZip_ne _ _ _ _ _ (by decide),
        lookupCol_mapZip_ne _ _ _ _ _ (by decide)] at hl
      simp [rowValD, hl, qToUnknown]
    · rw [hl]
      rw [lookupCol_mapZip_ne _ _ _ _ _ (by decide),
        lookupCol_mapZip_ne _ _ _ _ _ (by decide)] at hl
      simp [rowValD, hl, qToUnknown]

/-- C1: evaluation of the experiment-creation handler at a failing input.
The claim says only the "experiment already exists" error is swallowed and
every other error aborts the stage; the bare `except: pass` of lines 139-143
swallows a connectivity error as well, so execution continues. -/
theorem ensureExperiment_swallows_other_errors :
    ensureExperiment (Except.error (TrackingError.otherError "connection refused")) =
      Except.ok () ∧
    TrackingError.otherError "connection refused" ≠ TrackingError.alreadyExists := by
  exact ⟨rfl, by decide⟩

/-- C2 counterexample: the claim maps age 16 to bucket 1, but `pd.cut` with
bins `[16,29,39,49,59,100]` uses left-open intervals, so 16 falls in no
interval and is unmapped. -/
theorem age_sixteen_unmapped :
    ageBinCell (Cell.int 16) = Cell.na ∧ Cell.na ≠ Cell.int 1 := by
  exact ⟨rfl, by decide⟩

/-- C2 (amended): ages 17-29 bin to 1, 30-39 to 2, 40-49 to 3, 50-59 to 4,
60-100 to 5, and every age outside the left-open interval (16, 100] — in
particular the lower edge 16 itself — is unmapped. -/
theorem ageBinCell_buckets (a : Int) :
    (16 < a ∧ a ≤ 29 → ageBinCell (Cell.int a) = Cell.int 1) ∧
    (29 < a ∧ a ≤ 39 → ageBinCell (Cell.int a) = Cell.int 2) ∧
    (39 < a ∧ a ≤ 49 → ageBinCell (Cell.int a) = Cell.int 3) ∧
    (49 < a ∧ a ≤ 59 → ageBinCell (Cell.int a) = Cell.int 4) ∧
    (59 < a ∧ a ≤ 100 → ageBinCell (Cell.int a) = Cell.int 5) ∧
    (a ≤ 16 ∨ 100 < a → ageBinCell (Cell.int a) = Cell.na) := by
  refine ⟨?_, ?_, ?_, ?_, ?_, ?_⟩ <;> intro h <;>
    simp only [ageBinCell, cutCell, cutLookup] <;>
    split_ifs <;> first | rfl | omega

/-- C2 witness: the amended bucket map evaluated at the boundary ages. -/
theorem ageBinCell_buckets_witness :
    ageBinCell (Cell.int 17) = Cell.int 1 ∧ ageBinCell (Cell.int 29) = Cell.int 1 ∧
    ageBinCell (Cell.int 30) = Cell.int 2 ∧ ageBinCell (Cell.int 59) = Cell.int 4 ∧
    ageBinCell (Cell.int 60) = Cell.int 5 ∧ ageBinCell (Cell.int 100) = Cell.int 5 ∧
    ageBinCell (Cell.int 15) = Cell.na ∧ ageBinCell (Cell.int 101) = Cell.na :=
  ⟨(ageBinCell_buckets 17).1 (by decide),
   (ageBinCell_buckets 29).1 (by decide),
   (ageBinCell_buckets 30).2.1 (by decide),
   (ageBinCell_buckets 59).2.2.2.1 (by decide),
   (ageBinCell_buckets 60).2.2.2.2.1 (by decide),
   (ageBinCell_buckets 100).2.2.2.2.1 (by decide),
   (ageBinCell_buckets 15).2.2.2.2.2 (by decide),
   (ageBinCell_buckets 101).2.2.2.2.2 (by decide)⟩

/-- C3 counterexample: on a well-formed input the Cleaner succeeds and the
caller's object afterwards differs from the original input (columns were
dropped in place), refuting "the input object is left unchanged". -/
theorem preprocessing_mutates_input :
    preprocessingRun exC3in = some (exC3out, exC3out) ∧ exC3out ≠ exC3in := by
  exact ⟨by decide, by decide⟩

/-- C3 (amended): the Cleaner is a deterministic function of the input value
but not pure in the claimed sense: every cleaning step mutates the caller's
input object in place and line 80 returns that same object, so after a
successful call the caller's object equals the returned cleaned Record Set. -/
theorem preprocessing_returns_mutated_input (df : DataFrame)
    (pr : DataFrame × DataFrame) (h : preprocessingRun df = some pr) :
    pr.1 = pr.2 := by
  rw [preprocessingRun] at h
  rcases hp : preprocessing df with _ | d
  · rw [hp] at h; cases h
  · rw [hp] at h
    rw [← Option.some.inj h]

/-- C3 witness: the in-place equation evaluated on the concrete run. -/
theorem preprocessing_returns_mutated_input_witness :
    ((exC3out, exC3out) : DataFrame × DataFrame).1 = (exC3out, exC3out).2 :=
  preprocessing_returns_mutated_input exC3in (exC3out, exC3out) (by decide)

/-- C4 counterexample: the Cleaner deduplicates before dropping columns, so
two input rows differing only in `education_num` become exact duplicates in
the output, refuting "no two output rows are exact duplicates". -/
theorem preprocessing_duplicates_counterexample :
    preprocessing exC4in = some exC4out ∧ ¬ exC4out.rows.Nodup := by
  exact ⟨by decide, by decide⟩

/-- C4 (amended): the output of the Cleaner never contains a row with a
missing value (rows with NaN are dropped first and no later step introduces
one); exact duplicates, however, can reappear because trimming, sentinel
renaming and column dropping run after deduplication. -/
theorem preprocessing_no_missing (df out : DataFrame)
    (h : preprocessing df = some out)
    (r' : List Cell) (hr' : r' ∈ out.rows) : Cell.na ∉ r' := by
  obtain ⟨hw, hcols, hrows⟩ := preprocessing_inv df out h
  rw [hrows] at hr'
  obtain ⟨r, hr, rfl⟩ := List.mem_map.mp hr'
  have hrf := List.mem_filter.mp ((mem_dedupRowsAux _ _ _).mp hr).1
  intro hmem
  have h1 := mem_keepCells _ _ _ _ hmem
  have h2 := mem_applyRow_na _ _ _ h1
  have h3 := mem_applyRow_na _ _ _ h2
  have h4 := mem_applyRow_na _ _ _ h3
  have h5 := mem_stripRow_na _ _ h4
  have h6 := (hasNaCell_iff r).mpr h5
  rw [h6] at hrf
  exact absurd hrf.2 (by decide)

/-- C4 witness: no missing value in a concrete cleaned row. -/
theorem preprocessing_no_missing_witness :
    Cell.na ∉ [Cell.str "P", Cell.str "S", Cell.str "U"] :=
  preprocessing_no_missing exC4in exC4out (by decide)
    [Cell.str "P", Cell.str "S", Cell.str "U"] (by decide)

/-- C5: after the Cleaner, none of the columns workclass, occupation and
native_country contains the literal `"?"`: every value of those columns in the
output has passed through the rename that maps `"?"` to `"Unknown"`. -/
theorem preprocessing_no_question (df out : DataFrame) (c : String)
    (hc : c = "workclass" ∨ c = "occupation" ∨ c = "native_country")
    (h : preprocessing df = some out)
    (vs : List Cell) (hvs : colVals out c = some vs)
    (v : Cell) (hv : v ∈ vs) : v ≠ Cell.str "?" := by
  obtain ⟨hw, hcols, hrows⟩ := preprocessing_inv df out h
  rw [colVals] at hvs
  by_cases hm : memStr c out.cols
  case neg => rw [if_neg hm] at hvs; cases hvs
  rw [if_pos hm] at hvs
  rw [← Option.some.inj hvs] at hv
  obtain ⟨r', hr', rfl⟩ := List.mem_map.mp hv
  rw [hrows] at hr'
  obtain ⟨r, hr, rfl⟩ := List.mem_map.mp hr'
  rw [hcols, rowVal_pp_chain _ _ _ _ hc]
  exact qToUnknown_ne_q _

/-- C5 witness: the renamed value in the concrete cleaned frame. -/
theorem preprocessing_no_question_witness : Cell.str "Unknown" ≠ Cell.str "?" :=
  preprocessing_no_question exC5in exC5out "workclass" (Or.inl rfl) (by decide)
    [Cell.str "Unknown"] (by decide) (Cell.str "Unknown") (by decide)

/-- C6: in the Feature Builder's output, the derived `never_married` column
is 1 exactly on the rows whose input marital-status value is the literal
"Never-married", and 0 otherwise: the output column is the pointwise image of
the input marital-status column under the labelling lambda of line 108. -/
theorem never_married_iff (df out : DataFrame)
    (h : feature_engineering df = some out)
    (mv nv : List Cell)
    (hmv : colVals df "marital_status" = some mv)
    (hnv : colVals out "never_married" = some nv) :
    nv = mv.map nmCell := by
  rw [feature_engineering] at h
  by_cases hw : wfb df
  case neg => rw [if_neg hw] at h; cases h
  rw [if_pos hw] at h
  rcases h1 : getDummies df "workclass" "workclass" with _ | d1
  · rw [h1] at h; simp at h
  rw [h1, Option.some_bind] at h
  rcases h2 : getDummies d1 "education" "education" with _ | d2
  · rw [h2] at h; simp at h
  rw [h2, Option.some_bind] at h
  rcases h3 : getDummies d2 "occupation" "occupation" with _ | d3
  · rw [h3] at h; simp at h
  rw [h3, Option.some_bind] at h
  rcases h4 : getDummies d3 "race" "race" with _ | d4
  · rw [h4] at h; simp at h
  rw [h4, Option.some_bind] at h
  rcases h5 : getDummies d4 "sex" "sex" with _ | d5
  · rw [h5] at h; simp at h
  rw [h5, Option.some_bind] at h
  rcases h6 : getDummies d5 "income_bracket" "income_bracket" with _ | d6
  · rw [h6] at h; simp at h
  rw [h6, Option.some_bind] at h
  rcases h7 : getDummies d6 "native_country" "native_country" with _ | d7
  · rw [h7] at h; simp at h
  rw [h7, Option.some_bind] at h
  rcases hav : colVals d7 "age" with _ | av
  · rw [hav] at h; simp at h
  rw [hav, Option.some_bind] at h
  rcases hmv2 : colVals (setColumn d7 "age_bins" DType.category (av.map ageBinCell))
      "marital_status" with _ | mv2
  · rw [hmv2] at h; simp at h
  rw [hmv2, Option.some_bind] at h
  have hlen0 := wfb_rows_len df hw
  have hlen1 := getDummies_wfRows df d1 "workclass" "workclass" h1 hlen0
  have hlen2 := getDummies_wfRows d1 d2 "education" "education" h2 hlen1
  have hlen3 := getDummies_wfRows d2 d3 "occupation" "occupation" h3 hlen2
  have hlen4 := getDummies_wfRows d3 d4 "race" "race" h4 hlen3
  have hlen5 := getDummies_wfRows d4 d5 "sex" "sex" h5 hlen4
  have hlen6 := getDummies_wfRows d5 d6 "income_bracket" "income_bracket" h6 hlen5
  have hlen7 := getDummies_wfRows d6 d7 "native_country" "native_country" h7 hlen6
  have hcv1 : colVals d1 "marital_status" = some mv :=
    getDummies_colVals df d1 "workclass" "workclass" "marital_status" mv h1 hlen0
      (by decide) hmv
  have hcv2 : colVals d2 "marital_status" = some mv :=
    getDummies_colVals d1 d2 "education" "education" "marital_status" mv h2 hlen1
      (by decide) hcv1
  have hcv3 : colVals d3 "marital_status" = some mv :=
    getDummies_colVals d2 d3 "occupation" "occupation" "marital_status" mv h3 hlen2
      (by decide) hcv2
  have hcv4 : colVals d4 "marital_status" = some mv :=
    getDummies_colVals d3 d4 "race" "race" "marital_status" mv h4 hlen3
      (by decide) hcv3
  have hcv5 : colVals d5 "marital_status" = some mv :=
    getDummies_colVals d4 d5 "sex" "sex" "marital_status" mv h5 hlen4
      (by decide) hcv4
  have hcv6 : colVals d6 "marital_status" = some mv :=
    getDummies_colVals d5 d6 "income_bracket" "income_bracket" "marital_status" mv h6
      hlen5 (by decide) hcv5
  have hcv7 : colVals d7 "marital_status" = some mv :=
    getDummies_colVals d6 d7 "native_country" "native_country" "marital_status" mv h7
      hlen6 (by decide) hcv6
  have havlen : av.length = d7.rows.length := colVals_length d7 "age" av hav
  have hvallen : (av.map ageBinCell).length = d7.rows.length := by
    rw [List.length_map]; exact havlen
  have hcv8 : colVals (setColumn d7 "age_bins" DType.category (av.map ageBinCell))
      "marital_status" = some mv :=
    setColumn_colVals_ne d7 "age_bins" "marital_status" DType.category
      (av.map ageBinCell) mv hlen7 hvallen (by decide) hcv7
  have hmveq : mv2 = mv := Option.some.inj (hmv2.symm.trans hcv8)
  have hlen8 := setColumn_wfRows d7 "age_bins" DType.category (av.map ageBinCell) hlen7
  have hm2len : mv2.length =
      (setColumn d7 "age_bins" DType.category (av.map ageBinCell)).rows.length :=
    colVals_length _ _ _ hmv2
  have hnmlen : (mv2.map nmCell).length =
      (setColumn d7 "age_bins" DType.category (av.map ageBinCell)).rows.length := by
    rw [List.length_map]; exact hm2len
  have h9 : colVals
      (setColumn (setColumn d7 "age_bins" DType.category (av.map ageBinCell))
        "never_married" DType.int64 (mv2.map nmCell)) "never_married" =
      some (mv2.map nmCell) :=
    setColumn_colVals_self _ "never_married" DType.int64 (mv2.map nmCell) hlen8 hnmlen
  have hout2 : colVals out "never_married" = some (mv2.map nmCell) :=
    dropColumns_colVals _ out _ "never_married" _ h (by decide) h9
  rw [Option.some.inj (hnv.symm.trans hout2), hmveq]

/-- C6 witness: the derived label column of the concrete two-row frame. -/
theorem never_married_iff_witness :
    ([Cell.int 1, Cell.int 0] : List Cell) =
      [Cell.str "Never-married", Cell.str "Divorced"].map nmCell :=
  never_married_iff exC6in exC6out (by decide)
    [Cell.str "Never-married", Cell.str "Divorced"] [Cell.int 1, Cell.int 0]
    (by decide) (by decide)

/-- C7 counterexample: a row whose source value is missing gets all-zero
indicators.  On `exC7in` the one-hot expansion of workclass produces the
single indicator column `workclass_Private`, and the second output row (whose
workclass was NaN) holds 0 there, so no indicator of that source column is
set in that row — refuting "exactly one indicator is 1 in every row". -/
theorem one_hot_missing_value_counterexample :
    feature_engineering exC7in = some exC7out ∧
    colVals exC7out "workclass_Private" = some [Cell.int 1, Cell.int 0] ∧
    rowValD exC7out.cols (exC7out.rows.getD 1 []) "workclass_Private" = Cell.int 0 := by
  exact ⟨by decide, by decide, by decide⟩

/-- C7 (amended): in every output row of a one-hot expansion the trailing
indicator block holds only 0/1 cells; it holds exactly one 1 when the row's
source value is present — paired with the column named for that value — and
all zeros when the source value is missing. -/
theorem one_hot_per_row (df d' : DataFrame) (pfx c : String) (i : Nat)
    (h : getDummies df pfx c = some d') (hw : wfb df = true)
    (hi : i < df.rows.length) :
    (((d'.rows.getD i []).drop
        ((df.cols.filter (fun k => !(k == c))).length)).all
      (fun x => decide (x = Cell.int 0 ∨ x = Cell.int 1)) = true) ∧
    ((d'.rows.getD i []).drop
        ((df.cols.filter (fun k => !(k == c))).length)).count (Cell.int 1) =
      (if rowValD df.cols (df.rows.getD i []) c = Cell.na then 0 else 1) ∧
    (rowValD df.cols (df.rows.getD i []) c ≠ Cell.na →
      ((d'.cols.drop ((df.cols.filter (fun k => !(k == c))).length)).zip
          ((d'.rows.getD i []).drop
            ((df.cols.filter (fun k => !(k == c))).length))).count
        (dummyName pfx (rowValD df.cols (df.rows.getD i []) c), Cell.int 1) = 1) := by
  obtain ⟨hc, hcols, hrows⟩ := getDummies_inv df d' pfx c h
  have hrmem : df.rows.getD i [] ∈ df.rows := by
    have h2 : df.rows.getD i [] = df.rows[i] := by
      rw [List.getD_eq_getElem?_getD, List.getElem?_eq_getElem hi]
      rfl
    rw [h2]
    exact List.getElem_mem hi
  have hlen := wfb_rows_len df hw (df.rows.getD i []) hrmem
  have hgetD : d'.rows.getD i [] =
      keepCells df.cols (fun k => !(k == c)) (df.rows.getD i []) ++
      indicatorRow (distinctVals (df.rows.map (fun r => rowValD df.cols r c)))
        (rowValD df.cols (df.rows.getD i []) c) := by
    rw [hrows]
    exact getD_map_lt df.rows _ i hi [] []
  have hblock : (d'.rows.getD i []).drop
      ((df.cols.filter (fun k => !(k == c))).length) =
      indicatorRow (distinctVals (df.rows.map (fun r => rowValD df.cols r c)))
        (rowValD df.cols (df.rows.getD i []) c) := by
    rw [hgetD, ← keepCells_length df.cols (fun k => !(k == c)) _ hlen, List.drop_left]
  have hcolsdrop : d'.cols.drop ((df.cols.filter (fun k => !(k == c))).length) =
      (distinctVals (df.rows.map (fun r => rowValD df.cols r c))).map
        (dummyName pfx) := by
    rw [hcols, List.drop_left]
  refine ⟨?_, ?_, ?_⟩
  · rw [hblock]
    exact indicatorRow_all01 _ _
  · rw [hblock, indicatorRow_count]
    by_cases hv : rowValD df.cols (df.rows.getD i []) c = Cell.na
    · rw [if_pos hv]
      refine List.count_eq_zero.mpr ?_
      intro hmem
      exact ((mem_distinctVals _ _).mp hmem).2 hv
    · rw [if_neg hv]
      have hvm : rowValD df.cols (df.rows.getD i []) c ∈
          distinctVals (df.rows.map (fun r => rowValD df.cols r c)) :=
        (mem_distinctVals _ _).mpr ⟨List.mem_map_of_mem _ hrmem, hv⟩
      exact List.count_eq_one_of_mem (nodup_distinctVals _) hvm
  · intro hv
    have hvm : rowValD df.cols (df.rows.getD i []) c ∈
        distinctVals (df.rows.map (fun r => rowValD df.cols r c)) :=
      (mem_distinctVals _ _).mpr ⟨List.mem_map_of_mem _ hrmem, hv⟩
    rw [hblock, hcolsdrop]
    exact indicatorRow_pairs_count pfx _ _ (nodup_distinctVals _) hvm

/-- C7 witness: the one-hot row invariant evaluated on the first row of the
concrete one-column frame. -/
theorem one_hot_per_row_witness :
    (((exC7gout.rows.getD 0 []).drop
        ((exC7g.cols.filter (fun k => !(k == "workclass"))).length)).all
      (fun x => decide (x = Cell.int 0 ∨ x = Cell.int 1)) = true) ∧
    ((exC7gout.rows.getD 0 []).drop
        ((exC7g.cols.filter (fun k => !(k == "workclass"))).length)).count (Cell.int 1) =
      (if rowValD exC7g.cols (exC7g.rows.getD 0 []) "workclass" = Cell.na then 0
       else 1) ∧
    (rowValD exC7g.cols (exC7g.rows.getD 0 []) "workclass" ≠ Cell.na →
      ((exC7gout.cols.drop
          ((exC7g.cols.filter (fun k => !(k == "workclass"))).length)).zip
          ((exC7gout.rows.getD 0 []).drop
            ((exC7g.cols.filter (fun k => !(k == "workclass"))).length))).count
        (dummyName "workclass"
          (rowValD exC7g.cols (exC7g.rows.getD 0 []) "workclass"), Cell.int 1) = 1) :=
  one_hot_per_row exC7g exC7gout "workclass" "workclass" 0 (by decide) (by decide)
    (by decide)

/-- C8: the train/validation partition is deterministic: two runs of the
split on the same frame, labels and seed produce identical train and
validation subsets.  The external shuffler is embedded as the pure seeded
permutation inside `trainTestSplit`, so row membership depends only on the
input and the seed. -/
theorem train_test_split_deterministic (seed : Nat) (X : DataFrame) (y : List Cell)
    (o1 o2 : DataFrame × DataFrame × List Cell × List Cell)
    (h1 : trainTestSplit seed X y = o1) (h2 : trainTestSplit seed X y = o2) :
    o1 = o2 :=
  h1.symm.trans h2

/-- C8 witness: one run at seed 55 on the concrete five-row frame equals the
explicitly computed split. -/
theorem train_test_split_deterministic_witness :
    trainTestSplit 55 exC8X exC8y = exC8split :=
  train_test_split_deterministic 55 exC8X exC8y (trainTestSplit 55 exC8X exC8y)
    exC8split rfl (by decide)

/-- C9: the binary class prediction of line 172 is 1 exactly when the
predicted probability strictly exceeds 0.5, and 0 exactly when it is at most
0.5 — in particular a probability of exactly 0.5 yields class 0. -/
theorem threshold_strictly_greater (ps : List ℚ) (i : Nat) (hi : i < ps.length) :
    ((predClasses ps).getD i 0 = 1 ↔ (1 : ℚ) / 2 < ps.getD i 0) ∧
    ((predClasses ps).getD i 0 = 0 ↔ ps.getD i 0 ≤ (1 : ℚ) / 2) := by
  have hmap : (predClasses ps).getD i 0 = predClass (ps.getD i 0) :=
    getD_map_lt ps predClass i hi 0 0
  rw [hmap, predClass]
  by_cases hp : (1 : ℚ) / 2 < ps.getD i 0
  · rw [if_pos hp]
    constructor
    · exact ⟨fun _ => hp, fun _ => rfl⟩
    · constructor
      · intro hh; cases hh
      · intro hh; exact absurd hp (not_lt.mpr hh)
  · rw [if_neg hp]
    constructor
    · constructor
      · intro hh; cases hh
      · intro hh; exact absurd hh hp
    · exact ⟨fun _ => not_lt.mp hp, fun _ => rfl⟩

/-- C9 witness: probability exactly 0.5 yields class 0 and 0.75 yields
class 1. -/
theorem threshold_strictly_greater_witness :
    (predClasses [1 / 2, 3 / 4]).getD 0 0 = 0 ∧
    (predClasses [1 / 2, 3 / 4]).getD 1 0 = 1 :=
  ⟨(threshold_strictly_greater [1 / 2, 3 / 4] 0 (by decide)).2.mpr (by norm_num),
   (threshold_strictly_greater [1 / 2, 3 / 4] 1 (by decide)).1.mpr (by norm_num)⟩

/-- C10: trimming runs before the `"?"` rename, so an input row surviving the
Cleaner whose value in one of the three renamed (object-dtyped) columns is
`"?"` surrounded by whitespace appears in the output with `"Unknown"` there. -/
theorem trim_before_replace (df out : DataFrame) (c : String)
    (hc : c = "workclass" ∨ c = "occupation" ∨ c = "native_country")
    (h : preprocessing df = some out)
    (r : List Cell) (hr : r ∈ df.rows) (hna : hasNaCell r = false)
    (hdt : lookupCol c (df.cols.zip df.dtypes) = some DType.object)
    (s : String) (hs : lookupCol c (df.cols.zip r) = some (Cell.str s))
    (hq : trimString s = "?") :
    ∃ r' ∈ out.rows, rowValD out.cols r' c = Cell.str "Unknown" := by
  obtain ⟨hw, hcols, hrows⟩ := preprocessing_inv df out h
  have hfil : r ∈ df.rows.filter (fun r => !(hasNaCell r)) :=
    List.mem_filter.mpr ⟨hr, by rw [hna]; rfl⟩
  have hded : r ∈ dedupRowsAux [] (df.rows.filter (fun r => !(hasNaCell r))) :=
    (mem_dedupRowsAux _ _ _).mpr ⟨hfil, List.not_mem_nil r⟩
  refine ⟨keepCells df.cols
      (fun k => !(memStr k ["education_num", "relationship", "functional_weight"]))
      (applyRow df.cols "native_country" qToUnknown
        (applyRow df.cols "occupation" qToUnknown
          (applyRow df.cols "workclass" qToUnknown (stripRow df.dtypes r)))), ?_, ?_⟩
  · rw [hrows]
    exact List.mem_map_of_mem _ hded
  · rw [hcols, rowVal_pp_chain _ _ _ _ hc]
    have hpair : lookupCol c (df.cols.zip (df.dtypes.zip r)) =
        some (DType.object, Cell.str s) :=
      lookupCol_zip_pair df.cols df.dtypes r c DType.object (Cell.str s) hdt hs
    rw [rowValD, lookupCol_stripRow, hpair]
    simp [trimCell, hq, qToUnknown]

/-- C10 witness: the padded `" ? "` value in the concrete frame survives into
the output as `"Unknown"`. -/
theorem trim_before_replace_witness :
    ∃ r' ∈ exC10out.rows, rowValD exC10out.cols r' "workclass" = Cell.str "Unknown" :=
  trim_before_replace exC10in exC10out "workclass" (Or.inl rfl) (by decide)
    [Cell.str "  ? ", Cell.str "B", Cell.str "C", Cell.int 1, Cell.str "D", Cell.int 2]
    (by decide) (by decide) (by decide) "  ? " (by decide) (by decide)
